import Mathlib

/-!
Verification of the order-composition and settlement engine of the PANDA POS
system (src/src/components/POS.tsx, with the storage schema from
src/src/DATABASE_SETUP.md).

The embedding is a direct shallow translation of the TypeScript source:

* Monetary values (DECIMAL(10,2) columns, JS number prices) are embedded as
  rationals; stock counts and line quantities (INTEGER columns) as integers.
* The React state pair (cart, alert) becomes pure functions on a cart list;
  a code path that raises a window alert and returns early is modelled with
  an Except value whose error names the alert.
* The Supabase store becomes a record of the seven collections the POS code
  touches; each await call on the store becomes one pure update of that
  record.  Per the schema, the order_items, order_shots and order_specials
  tables all declare order_id REFERENCES orders(id) ON DELETE CASCADE, so
  deleting an orders row also removes that order's rows in all three line
  tables; the deleteOrder operation models this cascade.
-/

namespace PandaPOS

/-- Item row (stocked product) as in supabase/client.ts and the items table. -/
structure Item where
  id : String
  name : String
  quantity : Int
  barcode : Option String
  price : ℚ
  category : String
  low_stock_threshold : Int
deriving DecidableEq, Repr

/-- Shot row: untracked product, no quantity field. -/
structure Shot where
  id : String
  name : String
  price : ℚ
deriving DecidableEq, Repr

/-- Special row: untracked product, no quantity field. -/
structure Special where
  id : String
  name : String
  price : ℚ
deriving DecidableEq, Repr

/-- The product slot of a CartItem: Item | Shot | Special.  The source
carries two booleans isShot/isSpecial next to the product; every
construction site in POS.tsx sets them in agreement with the stored
variant, so the tag is carried by the constructor here. -/
inductive Product where
  | item (i : Item)
  | shot (s : Shot)
  | special (sp : Special)
deriving DecidableEq, Repr

namespace Product

/-- ci.item.id in the source. -/
def pid : Product → String
  | item i => i.id
  | shot s => s.id
  | special sp => sp.id

/-- ci.item.price in the source. -/
def price : Product → ℚ
  | item i => i.price
  | shot s => s.price
  | special sp => sp.price

/-- The isShot flag of the cart line holding this product. -/
def isShot : Product → Bool
  | shot _ => true
  | _ => false

/-- The isSpecial flag of the cart line holding this product. -/
def isSpecial : Product → Bool
  | special _ => true
  | _ => false

/-- (ci.item as Item).quantity in the source; only read on item lines. -/
def stock : Product → Int
  | item i => i.quantity
  | _ => 0

end Product

/-- CartItem from POS.tsx: product reference plus line quantity. -/
structure CartItem where
  product : Product
  quantity : Int
deriving DecidableEq, Repr

abbrev Cart := List CartItem

/-- The alerts the cart/settlement code can raise before mutating anything:
"Item out of stock!", "Not enough stock available!", and the saveAsTab
validation alert. -/
inductive PosError where
  | outOfStock
  | insufficientStock
  | validationError
deriving DecidableEq, Repr

/-- Variant selector used by the persistence loops: neither isShot nor
isSpecial, i.e. a stocked-item line. -/
def isItemLine (ci : CartItem) : Bool :=
  !ci.product.isShot && !ci.product.isSpecial

/-- Shot-line selector, first branch of the persistence loops. -/
def isShotLine (ci : CartItem) : Bool :=
  ci.product.isShot

/-- Special-line selector, second branch of the persistence loops. -/
def isSpecialLine (ci : CartItem) : Bool :=
  !ci.product.isShot && ci.product.isSpecial

/-- The cart.findIndex walk of addToCart: first line whose product id equals
the scanned item's id (the source compares ids only, not variant flags).
On a hit, increments that line if its quantity is still below the live
stock, else raises the "Not enough stock available!" alert; with no hit,
appends a fresh line of quantity 1. -/
def addScan (it : Item) : Cart → Except PosError Cart
  | [] => .ok [⟨Product.item it, 1⟩]
  | ci :: rest =>
    if ci.product.pid = it.id then
      if ci.quantity < it.quantity then
        .ok ({ ci with quantity := ci.quantity + 1 } :: rest)
      else
        .error .insufficientStock
    else
      match addScan it rest with
      | .ok c => .ok (ci :: c)
      | .error e => .error e

/-- addToCart from POS.tsx as a cart transformer with its alert surfaced:
the guard item.quantity <= 0 raises "Item out of stock!". -/
def addToCartE (it : Item) (cart : Cart) : Except PosError Cart :=
  if it.quantity ≤ 0 then .error .outOfStock else addScan it cart

/-- The cart state after addToCart: an alert path leaves the cart as it was. -/
def addToCart (it : Item) (cart : Cart) : Cart :=
  match addToCartE it cart with
  | .ok c => c
  | .error _ => cart

/-- One line of the cart.map inside updateQuantity; none models the
null-then-filter(Boolean) removal of a line driven to quantity <= 0. -/
def updateLine (itemId : String) (change : Int) (isShot isSpecial : Bool)
    (ci : CartItem) : Option CartItem :=
  if ci.product.pid = itemId ∧ ci.product.isShot = isShot ∧
      ci.product.isSpecial = isSpecial then
    if ci.quantity + change ≤ 0 then none
    else if isShot || isSpecial then
      some { ci with quantity := ci.quantity + change }
    else if ci.product.stock < ci.quantity + change then some ci
    else some { ci with quantity := ci.quantity + change }
  else some ci

/-- updateQuantity from POS.tsx: map each line through updateLine and drop
the removed ones. -/
def updateQuantity (itemId : String) (change : Int) (isShot isSpecial : Bool)
    (cart : Cart) : Cart :=
  cart.filterMap (updateLine itemId change isShot isSpecial)

/-- The exact condition under which updateQuantity raises its
"Not enough stock available!" alert at a given line: the line matches the
(id, isShot, isSpecial) key, survives the newQty <= 0 removal check, is an
item-variant line, and the new quantity would exceed the snapshot stock. -/
abbrev StockAlert (itemId : String) (change : Int) (ci : CartItem) : Prop :=
  ci.product.pid = itemId ∧ ci.product.isShot = false ∧
  ci.product.isSpecial = false ∧ 0 < ci.quantity + change ∧
  ci.product.stock < ci.quantity + change

/-- removeFromCart from POS.tsx. -/
def removeFromCart (itemId : String) (isShot isSpecial : Bool) (cart : Cart) :
    Cart :=
  cart.filter (fun ci =>
    !(ci.product.pid == itemId && ci.product.isShot == isShot &&
      ci.product.isSpecial == isSpecial))

/-- calculateSubtotal: cart.reduce((sum, ci) => sum + ci.item.price * ci.quantity, 0). -/
def calculateSubtotal (cart : Cart) : ℚ :=
  cart.foldl (fun sum ci => sum + ci.product.price * ci.quantity) 0

/-- calculateServiceFee: waitress role pays a 10 percent service fee. -/
def calculateServiceFee (role : String) (cart : Cart) : ℚ :=
  if role = "waitress" then calculateSubtotal cart * (1 / 10) else 0

/-- calculateTotal: subtotal plus service fee. -/
def calculateTotal (role : String) (cart : Cart) : ℚ :=
  calculateSubtotal cart + calculateServiceFee role cart

/-- calculateVAT: total - total / 1.15, the VAT portion of a 15 percent
VAT-inclusive total. -/
def calculateVAT (role : String) (cart : Cart) : ℚ :=
  calculateTotal role cart - calculateTotal role cart / (23 / 20)

/-- Rounding to two decimal places as applied at presentation boundaries
(toFixed(2) on the receipt). -/
def round2 (q : ℚ) : ℚ :=
  (round (q * 100) : ℤ) / 100

/-- A logged-in staff member (users table); getCurrentUser in the source. -/
structure User where
  id : String
  name : String
  role : String
deriving DecidableEq, Repr

/-- payment_method values accepted by the orders table check constraint. -/
inductive PaymentMethod where
  | cash
  | visa
  | mpesa
  | ecocash
deriving DecidableEq, Repr

/-- An orders-table row as written by the POS code. -/
structure OrderRec where
  id : String
  table_name : String
  status : String
  payment_method : Option PaymentMethod
  total : ℚ
  service_fee : ℚ
  staff_id : String
deriving DecidableEq, Repr

/-- A row of order_items / order_shots / order_specials: all three child
tables share this shape (product_id standing for item_id / shot_id /
special_id respectively). -/
structure OrderLine where
  order_id : String
  product_id : String
  staff_id : String
  quantity : Int
  price_at_time : ℚ
deriving DecidableEq, Repr

/-- The collections of the data store that POS.tsx reads and writes. -/
structure DB where
  items : List Item
  shots : List Shot
  specials : List Special
  orders : List OrderRec
  order_items : List OrderLine
  order_shots : List OrderLine
  order_specials : List OrderLine
deriving DecidableEq, Repr

/-- supabase.from('order_items').delete().eq('order_id', oid). -/
def deleteOrderItems (db : DB) (oid : String) : DB :=
  { db with order_items := db.order_items.filter (fun l => l.order_id != oid) }

/-- supabase.from('order_shots').delete().eq('order_id', oid). -/
def deleteOrderShots (db : DB) (oid : String) : DB :=
  { db with order_shots := db.order_shots.filter (fun l => l.order_id != oid) }

/-- supabase.from('order_specials').delete().eq('order_id', oid). -/
def deleteOrderSpecials (db : DB) (oid : String) : DB :=
  { db with order_specials := db.order_specials.filter (fun l => l.order_id != oid) }

/-- supabase.from('orders').delete().eq('id', oid).  Per the schema in
DATABASE_SETUP.md the three order-line tables declare
order_id REFERENCES orders(id) ON DELETE CASCADE, so the store removes the
order's rows from all three line tables together with the order row. -/
def deleteOrder (db : DB) (oid : String) : DB :=
  { db with
    orders := db.orders.filter (fun o => o.id != oid),
    order_items := db.order_items.filter (fun l => l.order_id != oid),
    order_shots := db.order_shots.filter (fun l => l.order_id != oid),
    order_specials := db.order_specials.filter (fun l => l.order_id != oid) }

/-- The order-line row inserted for one cart line: quantity and
price_at_time are taken from the cart line snapshot, staff_id is the
caller's identity. -/
def mkLine (oid staff : String) (ci : CartItem) : OrderLine :=
  { order_id := oid, product_id := ci.product.pid, staff_id := staff,
    quantity := ci.quantity, price_at_time := ci.product.price }

/-- One iteration of the persistence loop shared by saveAsTab: dispatch on
the line's variant flags and insert into the matching child table. -/
def insertCartLine (oid staff : String) (db : DB) (ci : CartItem) : DB :=
  if ci.product.isShot then
    { db with order_shots := db.order_shots ++ [mkLine oid staff ci] }
  else if ci.product.isSpecial then
    { db with order_specials := db.order_specials ++ [mkLine oid staff ci] }
  else
    { db with order_items := db.order_items ++ [mkLine oid staff ci] }

/-- The pending order row created by the new-tab branch of saveAsTab. -/
def mkPendingOrder (tableName : String) (user : User) (cart : Cart)
    (oid : String) : OrderRec :=
  { id := oid, table_name := tableName, status := "pending",
    payment_method := none, total := calculateTotal user.role cart,
    service_fee := calculateServiceFee user.role cart, staff_id := user.id }

/-- saveAsTab from POS.tsx.  Fails with the validation alert when the tab
name is empty or the cart is empty; otherwise either updates the existing
order and deletes its lines in all three child tables, or inserts a fresh
pending order (newOrderId standing for the id the store generates), and in
both cases re-inserts one line per cart entry. -/
def saveAsTab (db : DB) (cart : Cart) (tableName : String) (user : User)
    (editingTabId : Option String) (newOrderId : String) :
    Except PosError DB :=
  if tableName = "" ∨ cart = [] then .error .validationError
  else
    let pre : DB × String :=
      match editingTabId with
      | some tid =>
        let db1 : DB :=
          { db with orders := db.orders.map (fun o =>
              if o.id == tid then
                { o with table_name := tableName,
                         total := calculateTotal user.role cart,
                         service_fee := calculateServiceFee user.role cart }
              else o) }
        (deleteOrderSpecials (deleteOrderShots (deleteOrderItems db1 tid) tid) tid, tid)
      | none =>
        ({ db with orders := db.orders ++ [mkPendingOrder tableName user cart newOrderId] },
         newOrderId)
    .ok (cart.foldl (insertCartLine pre.2 user.id) pre.1)

/-- The store state after a saveAsTab call: the alert path returns before
any write, so the state is unchanged there. -/
def saveAsTabState (db : DB) (cart : Cart) (tableName : String) (user : User)
    (editingTabId : Option String) (newOrderId : String) : DB :=
  match saveAsTab db cart tableName user editingTabId newOrderId with
  | .ok d => d
  | .error _ => db

/-- The paid order row created by completePayment; an empty table name
falls back to the "Quick Sale" default via tableName || 'Quick Sale'. -/
def mkPaidOrder (tableName : String) (pm : PaymentMethod) (user : User)
    (cart : Cart) (oid : String) : OrderRec :=
  { id := oid,
    table_name := if tableName = "" then "Quick Sale" else tableName,
    status := "paid", payment_method := some pm,
    total := calculateTotal user.role cart,
    service_fee := calculateServiceFee user.role cart, staff_id := user.id }

/-- One iteration of the completePayment persistence loop: like
insertCartLine, but an item-variant line additionally writes the items row
with quantity := snapshot stock - line quantity (the read-modify-write
inventory decrement of the source). -/
def paymentStep (oid staff : String) (db : DB) (ci : CartItem) : DB :=
  if ci.product.isShot then
    { db with order_shots := db.order_shots ++ [mkLine oid staff ci] }
  else if ci.product.isSpecial then
    { db with order_specials := db.order_specials ++ [mkLine oid staff ci] }
  else
    { db with
      order_items := db.order_items ++ [mkLine oid staff ci],
      items := db.items.map (fun it =>
        if it.id == ci.product.pid then
          { it with quantity := ci.product.stock - ci.quantity }
        else it) }

/-- The quick-sale path of completePayment from POS.tsx: insert the paid
order, persist every cart line (decrementing stock for item lines), and if
the cart came from a reopened tab, delete the old pending order: the source
deletes its order_items and order_shots rows and then the orders row, whose
cascade also removes any remaining child rows. -/
def completePayment (db : DB) (cart : Cart) (tableName : String)
    (pm : PaymentMethod) (user : User) (editingTabId : Option String)
    (newOrderId : String) : DB :=
  let db1 : DB :=
    { db with orders := db.orders ++ [mkPaidOrder tableName pm user cart newOrderId] }
  let db2 := cart.foldl (paymentStep newOrderId user.id) db1
  match editingTabId with
  | some tid => deleteOrder (deleteOrderShots (deleteOrderItems db2 tid) tid) tid
  | none => db2

/-- deleteTab from POS.tsx: delete the order_items rows, then the orders
row (whose schema cascade also removes order_shots and order_specials rows
of that order). -/
def deleteTab (db : DB) (tabId : String) : DB :=
  deleteOrder (deleteOrderItems db tabId) tabId

/-- The cart rebuilt from a pending order by loadOpenTabs/loadTab: the three
child collections are filtered to the order and joined back to their live
catalog rows (the nested select order_items(*, items(*)) and friends), each
re-tagged with its variant; the rebuilt line quantity is the stored line
quantity and the product is the live catalog row. -/
def rehydrate (db : DB) (oid : String) : Cart :=
  (db.order_items.filter (fun l => l.order_id == oid)).filterMap (fun l =>
      (db.items.find? (fun it => it.id == l.product_id)).map
        (fun it => ⟨Product.item it, l.quantity⟩))
  ++ (db.order_shots.filter (fun l => l.order_id == oid)).filterMap (fun l =>
      (db.shots.find? (fun s => s.id == l.product_id)).map
        (fun s => ⟨Product.shot s, l.quantity⟩))
  ++ (db.order_specials.filter (fun l => l.order_id == oid)).filterMap (fun l =>
      (db.specials.find? (fun s => s.id == l.product_id)).map
        (fun s => ⟨Product.special s, l.quantity⟩))

/-- A cart-building step for the stock-ceiling invariant: the two cart
operations that touch stocked-item quantities. -/
inductive CartOp where
  | add (it : Item)
  | change (itemId : String) (delta : Int) (isShot isSpecial : Bool)

/-- Apply one cart operation; an alert path leaves the cart unchanged. -/
def applyOp (cart : Cart) : CartOp → Cart
  | .add it => addToCart it cart
  | .change itemId delta s sp => updateQuantity itemId delta s sp cart

/-- Apply a sequence of cart operations from left to right. -/
def applyOps (ops : List CartOp) (cart : Cart) : Cart :=
  ops.foldl applyOp cart

/-- Catalog-consistency of an operation sequence: every addToCart call
passes the catalog's current row for that id (the live item the UI hands
to addToCart), with one fixed catalog throughout the sequence. -/
def ConsistentOps (catalog : String → Item) (ops : List CartOp) : Prop :=
  ∀ op ∈ ops, ∀ it : Item, op = .add it → it = catalog it.id

/-- The cart invariant maintained by the two operations: every item-variant
line snapshots its catalog row and never exceeds that row's stock. -/
def ItemInv (catalog : String → Item) (cart : Cart) : Prop :=
  ∀ ci ∈ cart, ∀ it : Item, ci.product = Product.item it →
    it = catalog it.id ∧ ci.quantity ≤ it.quantity

/-- The cart addToCart leaves behind once the out-of-stock guard passed. -/
def addResult (it : Item) (cart : Cart) : Cart :=
  match addScan it cart with
  | .ok c => c
  | .error _ => cart

lemma addToCart_eq (it : Item) (cart : Cart) :
    addToCart it cart =
      if it.quantity ≤ 0 then cart else addResult it cart := by
  by_cases h : it.quantity ≤ 0 <;>
    simp [addToCart, addToCartE, addResult, h]

lemma addResult_nil (it : Item) :
    addResult it [] = [⟨Product.item it, 1⟩] := rfl

lemma addResult_cons (it : Item) (ci : CartItem) (rest : Cart) :
    addResult it (ci :: rest) =
      if ci.product.pid = it.id then
        if ci.quantity < it.quantity then
          { ci with quantity := ci.quantity + 1 } :: rest
        else ci :: rest
      else ci :: addResult it rest := by
  by_cases h : ci.product.pid = it.id
  · by_cases h2 : ci.quantity < it.quantity <;>
      simp [addResult, addScan, h, h2]
  · cases hsc : addScan it rest <;>
      simp [addResult, addScan, h, hsc]

lemma itemInv_addResult (catalog : String → Item) (it : Item)
    (hit : it = catalog it.id) (hpos : 0 < it.quantity) :
    ∀ cart : Cart, ItemInv catalog cart → ItemInv catalog (addResult it cart) := by
  intro cart
  induction cart with
  | nil =>
    intro _ ci hci it' hprod
    rw [addResult_nil] at hci
    rcases List.mem_singleton.mp hci with rfl
    cases hprod
    refine ⟨hit, ?_⟩
    show (1 : Int) ≤ it.quantity
    omega
  | cons cj rest ih =>
    intro hinv
    have hinv_rest : ItemInv catalog rest :=
      fun ci hci => hinv ci (List.mem_cons_of_mem _ hci)
    rw [addResult_cons]
    by_cases h : cj.product.pid = it.id
    · by_cases h2 : cj.quantity < it.quantity
      · rw [if_pos h, if_pos h2]
        intro ci hci it' hprod
        rcases List.mem_cons.mp hci with rfl | hmem
        · have hprod' : cj.product = Product.item it' := hprod
          obtain ⟨hcat, _⟩ := hinv cj (List.mem_cons_self _ _) it' hprod'
          have hid : it'.id = it.id := by
            have hpid : cj.product.pid = it'.id := by rw [hprod']; rfl
            rw [← hpid, h]
          have hit' : it' = it := by rw [hcat, hid, ← hit]
          refine ⟨hcat, ?_⟩
          show cj.quantity + 1 ≤ it'.quantity
          rw [hit']
          omega
        · exact hinv ci (List.mem_cons_of_mem _ hmem) it' hprod
      · rw [if_pos h, if_neg h2]
        exact hinv
    · rw [if_neg h]
      intro ci hci it' hprod
      rcases List.mem_cons.mp hci with rfl | hmem
      · exact hinv ci (List.mem_cons_self _ _) it' hprod
      · exact ih hinv_rest ci hmem it' hprod

lemma itemInv_updateLine (catalog : String → Item) (itemId : String)
    (change : Int) (s sp : Bool) (ci ci' : CartItem)
    (h : ∀ it : Item, ci.product = Product.item it →
      it = catalog it.id ∧ ci.quantity ≤ it.quantity)
    (h' : updateLine itemId change s sp ci = some ci') :
    ∀ it : Item, ci'.product = Product.item it →
      it = catalog it.id ∧ ci'.quantity ≤ it.quantity := by
  intro it hprod
  unfold updateLine at h'
  by_cases hm : ci.product.pid = itemId ∧ ci.product.isShot = s ∧
      ci.product.isSpecial = sp
  · rw [if_pos hm] at h'
    by_cases hz : ci.quantity + change ≤ 0
    · rw [if_pos hz] at h'
      exact absurd h' (by simp)
    · rw [if_neg hz] at h'
      by_cases hb : (s || sp) = true
      · rw [if_pos hb] at h'
        rw [Option.some_inj] at h'
        subst h'
        have hprod' : ci.product = Product.item it := hprod
        have hs : ci.product.isShot = false := by rw [hprod']; rfl
        have hsp : ci.product.isSpecial = false := by rw [hprod']; rfl
        rw [hs] at hm
        rw [hsp] at hm
        rw [← hm.2.1, ← hm.2.2] at hb
        exact absurd hb (by simp)
      · rw [if_neg hb] at h'
        by_cases hst : ci.product.stock < ci.quantity + change
        · rw [if_pos hst, Option.some_inj] at h'
          subst h'
          exact h it hprod
        · rw [if_neg hst, Option.some_inj] at h'
          subst h'
          have hprod' : ci.product = Product.item it := hprod
          obtain ⟨hcat, _⟩ := h it hprod'
          refine ⟨hcat, ?_⟩
          show ci.quantity + change ≤ it.quantity
          have hstock : ci.product.stock = it.quantity := by rw [hprod']; rfl
          rw [hstock] at hst
          omega
  · rw [if_neg hm, Option.some_inj] at h'
    subst h'
    exact h it hprod

lemma itemInv_updateQuantity (catalog : String → Item) (itemId : String)
    (change : Int) (s sp : Bool) (cart : Cart) (h : ItemInv catalog cart) :
    ItemInv catalog (updateQuantity itemId change s sp cart) := by
  intro ci' hmem it hprod
  simp only [updateQuantity] at hmem
  rcases List.mem_filterMap.mp hmem with ⟨ci, hci, hline⟩
  exact itemInv_updateLine catalog itemId change s sp ci ci' (h ci hci)
    hline it hprod

lemma itemInv_applyOp (catalog : String → Item) (cart : Cart) (op : CartOp)
    (hop : ∀ it : Item, op = CartOp.add it → it = catalog it.id)
    (h : ItemInv catalog cart) : ItemInv catalog (applyOp cart op) := by
  cases op with
  | add it =>
    have hit := hop it rfl
    show ItemInv catalog (addToCart it cart)
    rw [addToCart_eq]
    by_cases hq : it.quantity ≤ 0
    · rw [if_pos hq]
      exact h
    · rw [if_neg hq]
      exact itemInv_addResult catalog it hit (by omega) cart h
  | change itemId delta s sp =>
    exact itemInv_updateQuantity catalog itemId delta s sp cart h

lemma itemInv_applyOps (catalog : String → Item) :
    ∀ ops : List CartOp, ConsistentOps catalog ops →
      ∀ cart : Cart, ItemInv catalog cart →
        ItemInv catalog (applyOps ops cart) := by
  intro ops
  induction ops with
  | nil =>
    intro _ cart h
    exact h
  | cons op rest ih =>
    intro hops cart h
    show ItemInv catalog (applyOps rest (applyOp cart op))
    exact ih (fun o ho it hi => hops o (List.mem_cons_of_mem _ ho) it hi) _
      (itemInv_applyOp catalog cart op
        (fun it hi => hops op (List.mem_cons_self _ _) it hi) h)

lemma addScan_first_match (it : Item) (ci : CartItem) (cart₂ : Cart) :
    ∀ cart₁ : Cart, (∀ cj ∈ cart₁, cj.product.pid ≠ it.id) →
      ci.product.pid = it.id → ¬ ci.quantity < it.quantity →
      addScan it (cart₁ ++ ci :: cart₂) = .error .insufficientStock := by
  intro cart₁
  induction cart₁ with
  | nil =>
    intro _ hm hfull
    show addScan it (ci :: cart₂) = _
    simp [addScan, hm, hfull]
  | cons cj rest ih =>
    intro hskip hm hfull
    have hne := hskip cj (List.mem_cons_self _ _)
    have hrest := ih (fun x hx => hskip x (List.mem_cons_of_mem _ hx)) hm hfull
    show addScan it (cj :: (rest ++ ci :: cart₂)) = _
    simp [addScan, hne, hrest]

lemma filterMap_id_of_forall {α : Type} (f : α → Option α) (l : List α)
    (h : ∀ a ∈ l, f a = some a) : l.filterMap f = l := by
  induction l with
  | nil => rfl
  | cons a t ih =>
    rw [List.filterMap_cons, h a (List.mem_cons_self _ _),
      ih (fun b hb => h b (List.mem_cons_of_mem _ hb))]

lemma updateLine_alert (itemId : String) (change : Int) (ci : CartItem)
    (h : StockAlert itemId change ci) :
    updateLine itemId change false false ci = some ci := by
  obtain ⟨h1, h2, h3, h4, h5⟩ := h
  unfold updateLine
  rw [if_pos ⟨h1, h2, h3⟩, if_neg (by omega), if_neg (by simp), if_pos h5]

/-- C1: For every sequence of addItem (addToCart) and changeQuantity
(updateQuantity) operations against a StockedItem whose live quantity is Q,
the cart line's quantity for that item never exceeds Q at any point of the
sequence; addToCart raises OutOfStock when Q ≤ 0 and leaves the cart
unchanged; an add whose first id-matching line is already at the stock
ceiling raises InsufficientStock and leaves the cart unchanged; and an
increment that would push an item line past its stock leaves the cart,
including that line, unchanged (the source raises the
"Not enough stock available!" alert there, captured by StockAlert). -/
theorem cart_stock_ceiling :
    (∀ (it : Item) (cart : Cart), it.quantity ≤ 0 →
      addToCartE it cart = .error .outOfStock ∧ addToCart it cart = cart)
    ∧
    (∀ (it : Item) (cart₁ cart₂ : Cart) (ci : CartItem),
      ¬ it.quantity ≤ 0 →
      (∀ cj ∈ cart₁, cj.product.pid ≠ it.id) →
      ci.product.pid = it.id → ¬ ci.quantity < it.quantity →
      addToCartE it (cart₁ ++ ci :: cart₂) = .error .insufficientStock ∧
      addToCart it (cart₁ ++ ci :: cart₂) = cart₁ ++ ci :: cart₂)
    ∧
    (∀ (itemId : String) (change : Int) (cart : Cart),
      (∀ ci ∈ cart,
        ci.product.pid = itemId ∧ ci.product.isShot = false ∧
          ci.product.isSpecial = false →
        StockAlert itemId change ci) →
      updateQuantity itemId change false false cart = cart)
    ∧
    (∀ (catalog : String → Item) (ops : List CartOp) (tid : String),
      ConsistentOps catalog ops →
      ∀ n : ℕ, ∀ ci ∈ applyOps (ops.take n) [], ∀ it : Item,
        ci.product = Product.item it → it.id = tid →
        ci.quantity ≤ (catalog tid).quantity) := by
  refine ⟨?_, ?_, ?_, ?_⟩
  · intro it cart h
    constructor
    · simp [addToCartE, h]
    · simp [addToCart, addToCartE, h]
  · intro it cart₁ cart₂ ci hq hskip hm hfull
    have hsc := addScan_first_match it ci cart₂ cart₁ hskip hm hfull
    constructor
    · simp [addToCartE, hq, hsc]
    · simp [addToCart, addToCartE, hq, hsc]
  · intro itemId change cart h
    refine filterMap_id_of_forall _ cart (fun ci hci => ?_)
    by_cases hk : ci.product.pid = itemId ∧ ci.product.isShot = false ∧
        ci.product.isSpecial = false
    · exact updateLine_alert itemId change ci (h ci hci hk)
    · unfold updateLine
      rw [if_neg (by simpa using hk)]
  · intro catalog ops tid hops n ci hci it hprod hid
    have hinv : ItemInv catalog (applyOps (ops.take n) []) :=
      itemInv_applyOps catalog (ops.take n)
        (fun o ho it' hi => hops o (List.take_subset n ops ho) it' hi)
        [] (fun _ h => absurd h (List.not_mem_nil _))
    obtain ⟨hcat, hle⟩ := hinv ci hci it hprod
    subst hid
    rw [← hcat]
    exact hle

/-- Witness for C1: a quantity-0 item is rejected by addToCart; an add
against a line already at the stock ceiling (3 of 3) leaves the cart
unchanged; a +3 increment of a 3-of-5 line leaves the cart unchanged. -/
theorem cart_stock_ceiling_witness :
    addToCart ⟨"b1", "Beer", 0, none, 9/2, "Alcohol", 30⟩ [] = [] ∧
    addToCart ⟨"b1", "Beer", 3, none, 9/2, "Alcohol", 30⟩
        [⟨Product.item ⟨"b1", "Beer", 3, none, 9/2, "Alcohol", 30⟩, 3⟩] =
      [⟨Product.item ⟨"b1", "Beer", 3, none, 9/2, "Alcohol", 30⟩, 3⟩] ∧
    updateQuantity "b1" 3 false false
        [⟨Product.item ⟨"b1", "Beer", 5, none, 9/2, "Alcohol", 30⟩, 3⟩] =
      [⟨Product.item ⟨"b1", "Beer", 5, none, 9/2, "Alcohol", 30⟩, 3⟩] := by
  refine ⟨(cart_stock_ceiling.1 _ [] (by decide)).2, ?_, ?_⟩
  · exact (cart_stock_ceiling.2.1 ⟨"b1", "Beer", 3, none, 9/2, "Alcohol", 30⟩
      [] _ ⟨Product.item ⟨"b1", "Beer", 3, none, 9/2, "Alcohol", 30⟩, 3⟩
      (by decide) (by decide) (by decide) (by decide)).2
  · exact cart_stock_ceiling.2.2.1 "b1" 3 _ (by decide)

lemma calculateSubtotal_eq_sum (cart : Cart) :
    calculateSubtotal cart =
      (cart.map (fun ci => ci.product.price * (ci.quantity : ℚ))).sum := by
  rw [calculateSubtotal, List.sum_eq_foldl, List.foldl_map]

/-- C3: subtotal is exactly the sum over lines of quantity times captured
unit price, serviceFee is a tenth of the subtotal exactly when the role is
waitress and zero otherwise, total is exactly subtotal plus serviceFee, and
all three results are invariant under permutation of the cart's lines. -/
theorem pricing_consistent :
    (∀ cart : Cart,
      calculateSubtotal cart =
        (cart.map (fun ci => (ci.quantity : ℚ) * ci.product.price)).sum)
    ∧
    (∀ (role : String) (cart : Cart),
      calculateServiceFee role cart =
        if role = "waitress" then calculateSubtotal cart * (1 / 10) else 0)
    ∧
    (∀ (role : String) (cart : Cart),
      calculateTotal role cart =
        calculateSubtotal cart + calculateServiceFee role cart)
    ∧
    (∀ (role : String) (cart₁ cart₂ : Cart), cart₁.Perm cart₂ →
      calculateSubtotal cart₁ = calculateSubtotal cart₂ ∧
      calculateServiceFee role cart₁ = calculateServiceFee role cart₂ ∧
      calculateTotal role cart₁ = calculateTotal role cart₂) := by
  have hsub : ∀ cart₁ cart₂ : Cart, cart₁.Perm cart₂ →
      calculateSubtotal cart₁ = calculateSubtotal cart₂ := by
    intro cart₁ cart₂ hp
    rw [calculateSubtotal_eq_sum, calculateSubtotal_eq_sum]
    exact (hp.map _).sum_eq
  refine ⟨?_, ?_, ?_, ?_⟩
  · intro cart
    rw [calculateSubtotal_eq_sum]
    congr 1
    exact List.map_congr_left (fun ci _ => mul_comm _ _)
  · intro role cart
    rfl
  · intro role cart
    rfl
  · intro role cart₁ cart₂ hp
    refine ⟨hsub cart₁ cart₂ hp, ?_, ?_⟩
    · rw [calculateServiceFee, calculateServiceFee, hsub cart₁ cart₂ hp]
    · rw [calculateTotal, calculateTotal, hsub cart₁ cart₂ hp,
        calculateServiceFee, calculateServiceFee, hsub cart₁ cart₂ hp]

/-- Witness for C3 at a two-line cart and its reversal: a waitress cart
holding 3 of a 9/2-priced item and 2 of a 25-priced shot. -/
theorem pricing_consistent_witness :
    calculateSubtotal
        [⟨Product.item ⟨"b1", "Beer", 5, none, 9/2, "Alcohol", 30⟩, 3⟩,
         ⟨Product.shot ⟨"s1", "Jameson", 25⟩, 2⟩] =
      ((3 : ℚ) * (9/2) + (2 : ℚ) * 25 + 0) ∧
    calculateTotal "waitress"
        [⟨Product.item ⟨"b1", "Beer", 5, none, 9/2, "Alcohol", 30⟩, 3⟩,
         ⟨Product.shot ⟨"s1", "Jameson", 25⟩, 2⟩] =
      calculateTotal "waitress"
        [⟨Product.shot ⟨"s1", "Jameson", 25⟩, 2⟩,
         ⟨Product.item ⟨"b1", "Beer", 5, none, 9/2, "Alcohol", 30⟩, 3⟩] := by
  constructor
  · rw [pricing_consistent.1]
    norm_num [Product.price]
  · exact (pricing_consistent.2.2.2 "waitress" _ _
      (List.Perm.swap _ _ _)).2.2

/-- C9: the reported VAT equals total minus total divided by 1.15 for every
cart and role, and on any waitress cart whose subtotal is 100 the service
fee is 10, the total is 110, and the VAT rounded to two decimals is 14.35. -/
theorem vat_inclusive_decomposition :
    (∀ (role : String) (cart : Cart),
      calculateVAT role cart =
        calculateTotal role cart - calculateTotal role cart / (115 / 100))
    ∧
    (∀ cart : Cart, calculateSubtotal cart = 100 →
      calculateServiceFee "waitress" cart = 10 ∧
      calculateTotal "waitress" cart = 110 ∧
      round2 (calculateVAT "waitress" cart) = 1435 / 100) := by
  constructor
  · intro role cart
    rw [calculateVAT]
    norm_num
  · intro cart h
    have hfee : calculateServiceFee "waitress" cart = 10 := by
      rw [calculateServiceFee, if_pos rfl, h]
      norm_num
    have htot : calculateTotal "waitress" cart = 110 := by
      rw [calculateTotal, h, hfee]
      norm_num
    refine ⟨hfee, htot, ?_⟩
    rw [round2, calculateVAT, htot]
    norm_num [round_eq]

/-- Witness for C9: a single item line priced 100, quantity 1, held by a
waitress, yields fee 10, total 110 and rounded VAT 14.35. -/
theorem vat_inclusive_decomposition_witness :
    calculateServiceFee "waitress"
        [⟨Product.item ⟨"i1", "Platter", 5, none, 100, "Food", 10⟩, 1⟩] = 10 ∧
    calculateTotal "waitress"
        [⟨Product.item ⟨"i1", "Platter", 5, none, 100, "Food", 10⟩, 1⟩] = 110 ∧
    round2 (calculateVAT "waitress"
        [⟨Product.item ⟨"i1", "Platter", 5, none, 100, "Food", 10⟩, 1⟩]) =
      1435 / 100 :=
  vat_inclusive_decomposition.2 _ (by norm_num [calculateSubtotal, Product.price])

lemma insertCartLine_items (oid staff : String) (db : DB) (ci : CartItem) :
    (insertCartLine oid staff db ci).items = db.items := by
  unfold insertCartLine
  split
  · rfl
  · split <;> rfl

lemma insertCartLine_shots (oid staff : String) (db : DB) (ci : CartItem) :
    (insertCartLine oid staff db ci).shots = db.shots := by
  unfold insertCartLine
  split
  · rfl
  · split <;> rfl

lemma insertCartLine_specials (oid staff : String) (db : DB) (ci : CartItem) :
    (insertCartLine oid staff db ci).specials = db.specials := by
  unfold insertCartLine
  split
  · rfl
  · split <;> rfl

lemma insertCartLine_orders (oid staff : String) (db : DB) (ci : CartItem) :
    (insertCartLine oid staff db ci).orders = db.orders := by
  unfold insertCartLine
  split
  · rfl
  · split <;> rfl

lemma insertCartLine_order_items (oid staff : String) (db : DB) (ci : CartItem) :
    (insertCartLine oid staff db ci).order_items =
      db.order_items ++ (if isItemLine ci then [mkLine oid staff ci] else []) := by
  unfold insertCartLine isItemLine
  cases h1 : ci.product.isShot <;> cases h2 : ci.product.isSpecial <;> simp

lemma insertCartLine_order_shots (oid staff : String) (db : DB) (ci : CartItem) :
    (insertCartLine oid staff db ci).order_shots =
      db.order_shots ++ (if isShotLine ci then [mkLine oid staff ci] else []) := by
  unfold insertCartLine isShotLine
  cases h1 : ci.product.isShot <;> cases h2 : ci.product.isSpecial <;> simp

lemma insertCartLine_order_specials (oid staff : String) (db : DB) (ci : CartItem) :
    (insertCartLine oid staff db ci).order_specials =
      db.order_specials ++ (if isSpecialLine ci then [mkLine oid staff ci] else []) := by
  unfold insertCartLine isSpecialLine
  cases h1 : ci.product.isShot <;> cases h2 : ci.product.isSpecial <;> simp

lemma foldl_insert_items (oid staff : String) :
    ∀ (cart : Cart) (db : DB),
      (cart.foldl (insertCartLine oid staff) db).items = db.items := by
  intro cart
  induction cart with
  | nil => intro db; rfl
  | cons ci rest ih =>
    intro db
    show (rest.foldl _ (insertCartLine oid staff db ci)).items = _
    rw [ih, insertCartLine_items]

lemma foldl_insert_shots (oid staff : String) :
    ∀ (cart : Cart) (db : DB),
      (cart.foldl (insertCartLine oid staff) db).shots = db.shots := by
  intro cart
  induction cart with
  | nil => intro db; rfl
  | cons ci rest ih =>
    intro db
    show (rest.foldl _ (insertCartLine oid staff db ci)).shots = _
    rw [ih, insertCartLine_shots]

lemma foldl_insert_specials (oid staff : String) :
    ∀ (cart : Cart) (db : DB),
      (cart.foldl (insertCartLine oid staff) db).specials = db.specials := by
  intro cart
  induction cart with
  | nil => intro db; rfl
  | cons ci rest ih =>
    intro db
    show (rest.foldl _ (insertCartLine oid staff db ci)).specials = _
    rw [ih, insertCartLine_specials]

lemma foldl_insert_orders (oid staff : String) :
    ∀ (cart : Cart) (db : DB),
      (cart.foldl (insertCartLine oid staff) db).orders = db.orders := by
  intro cart
  induction cart with
  | nil => intro db; rfl
  | cons ci rest ih =>
    intro db
    show (rest.foldl _ (insertCartLine oid staff db ci)).orders = _
    rw [ih, insertCartLine_orders]

lemma foldl_insert_order_items (oid staff : String) :
    ∀ (cart : Cart) (db : DB),
      (cart.foldl (insertCartLine oid staff) db).order_items =
        db.order_items ++ (cart.filter isItemLine).map (mkLine oid staff) := by
  intro cart
  induction cart with
  | nil => intro db; simp
  | cons ci rest ih =>
    intro db
    show (rest.foldl _ (insertCartLine oid staff db ci)).order_items = _
    rw [ih, insertCartLine_order_items]
    cases h : isItemLine ci <;> simp [List.filter_cons, h]

lemma foldl_insert_order_shots (oid staff : String) :
    ∀ (cart : Cart) (db : DB),
      (cart.foldl (insertCartLine oid staff) db).order_shots =
        db.order_shots ++ (cart.filter isShotLine).map (mkLine oid staff) := by
  intro cart
  induction cart with
  | nil => intro db; simp
  | cons ci rest ih =>
    intro db
    show (rest.foldl _ (insertCartLine oid staff db ci)).order_shots = _
    rw [ih, insertCartLine_order_shots]
    cases h : isShotLine ci <;> simp [List.filter_cons, h]

lemma foldl_insert_order_specials (oid staff : String) :
    ∀ (cart : Cart) (db : DB),
      (cart.foldl (insertCartLine oid staff) db).order_specials =
        db.order_specials ++ (cart.filter isSpecialLine).map (mkLine oid staff) := by
  intro cart
  induction cart with
  | nil => intro db; simp
  | cons ci rest ih =>
    intro db
    show (rest.foldl _ (insertCartLine oid staff db ci)).order_specials = _
    rw [ih, insertCartLine_order_specials]
    cases h : isSpecialLine ci <;> simp [List.filter_cons, h]

/-- The one-line inventory write of completePayment: set the matching items
row to snapshot stock minus line quantity. -/
def lineDecrement (ci : CartItem) (its : List Item) : List Item :=
  its.map (fun it =>
    if it.id == ci.product.pid then
      { it with quantity := ci.product.stock - ci.quantity }
    else it)

/-- The items table after the completePayment loop, collected left to
right: item-variant lines write their decrement, other lines touch
nothing. -/
def itemsAfter (cart : Cart) (its : List Item) : List Item :=
  match cart with
  | [] => its
  | ci :: rest => itemsAfter rest (if isItemLine ci then lineDecrement ci its else its)

/-- Modelled from the claim's wording: the stored item decremented by the
quantity of the cart's item-variant line for it, if one exists. -/
def specStockAfter (cart : Cart) (it : Item) : Item :=
  match cart.find? (fun ci => isItemLine ci && ci.product.pid == it.id) with
  | some ci => { it with quantity := it.quantity - ci.quantity }
  | none => it

lemma paymentStep_shots (oid staff : String) (db : DB) (ci : CartItem) :
    (paymentStep oid staff db ci).shots = db.shots := by
  unfold paymentStep
  split
  · rfl
  · split <;> rfl

lemma paymentStep_specials (oid staff : String) (db : DB) (ci : CartItem) :
    (paymentStep oid staff db ci).specials = db.specials := by
  unfold paymentStep
  split
  · rfl
  · split <;> rfl

lemma paymentStep_orders (oid staff : String) (db : DB) (ci : CartItem) :
    (paymentStep oid staff db ci).orders = db.orders := by
  unfold paymentStep
  split
  · rfl
  · split <;> rfl

lemma paymentStep_items (oid staff : String) (db : DB) (ci : CartItem) :
    (paymentStep oid staff db ci).items =
      (if isItemLine ci then lineDecrement ci db.items else db.items) := by
  unfold paymentStep isItemLine lineDecrement
  cases h1 : ci.product.isShot <;> cases h2 : ci.product.isSpecial <;> simp

lemma paymentStep_order_items (oid staff : String) (db : DB) (ci : CartItem) :
    (paymentStep oid staff db ci).order_items =
      db.order_items ++ (if isItemLine ci then [mkLine oid staff ci] else []) := by
  unfold paymentStep isItemLine
  cases h1 : ci.product.isShot <;> cases h2 : ci.product.isSpecial <;> simp

lemma paymentStep_order_shots (oid staff : String) (db : DB) (ci : CartItem) :
    (paymentStep oid staff db ci).order_shots =
      db.order_shots ++ (if isShotLine ci then [mkLine oid staff ci] else []) := by
  unfold paymentStep isShotLine
  cases h1 : ci.product.isShot <;> cases h2 : ci.product.isSpecial <;> simp

lemma paymentStep_order_specials (oid staff : String) (db : DB) (ci : CartItem) :
    (paymentStep oid staff db ci).order_specials =
      db.order_specials ++ (if isSpecialLine ci then [mkLine oid staff ci] else []) := by
  unfold paymentStep isSpecialLine
  cases h1 : ci.product.isShot <;> cases h2 : ci.product.isSpecial <;> simp

lemma foldl_payment_orders (oid staff : String) :
    ∀ (cart : Cart) (db : DB),
      (cart.foldl (paymentStep oid staff) db).orders = db.orders := by
  intro cart
  induction cart with
  | nil => intro db; rfl
  | cons ci rest ih =>
    intro db
    show (rest.foldl _ (paymentStep oid staff db ci)).orders = _
    rw [ih, paymentStep_orders]

lemma foldl_payment_items (oid staff : String) :
    ∀ (cart : Cart) (db : DB),
      (cart.foldl (paymentStep oid staff) db).items = itemsAfter cart db.items := by
  intro cart
  induction cart with
  | nil => intro db; rfl
  | cons ci rest ih =>
    intro db
    show (rest.foldl _ (paymentStep oid staff db ci)).items = _
    rw [ih, paymentStep_items, itemsAfter]

lemma foldl_payment_order_items (oid staff : String) :
    ∀ (cart : Cart) (db : DB),
      (cart.foldl (paymentStep oid staff) db).order_items =
        db.order_items ++ (cart.filter isItemLine).map (mkLine oid staff) := by
  intro cart
  induction cart with
  | nil => intro db; simp
  | cons ci rest ih =>
    intro db
    show (rest.foldl _ (paymentStep oid staff db ci)).order_items = _
    rw [ih, paymentStep_order_items]
    cases h : isItemLine ci <;> simp [List.filter_cons, h]

lemma foldl_payment_order_shots (oid staff : String) :
    ∀ (cart : Cart) (db : DB),
      (cart.foldl (paymentStep oid staff) db).order_shots =
        db.order_shots ++ (cart.filter isShotLine).map (mkLine oid staff) := by
  intro cart
  induction cart with
  | nil => intro db; simp
  | cons ci rest ih =>
    intro db
    show (rest.foldl _ (paymentStep oid staff db ci)).order_shots = _
    rw [ih, paymentStep_order_shots]
    cases h : isShotLine ci <;> simp [List.filter_cons, h]

lemma foldl_payment_order_specials (oid staff : String) :
    ∀ (cart : Cart) (db : DB),
      (cart.foldl (paymentStep oid staff) db).order_specials =
        db.order_specials ++ (cart.filter isSpecialLine).map (mkLine oid staff) := by
  intro cart
  induction cart with
  | nil => intro db; simp
  | cons ci rest ih =>
    intro db
    show (rest.foldl _ (paymentStep oid staff db ci)).order_specials = _
    rw [ih, paymentStep_order_specials]
    cases h : isSpecialLine ci <;> simp [List.filter_cons, h]

lemma itemsAfter_spec :
    ∀ (cart : Cart) (its : List Item),
      ((cart.filter isItemLine).map (fun ci => ci.product.pid)).Nodup →
      (∀ ci ∈ cart, isItemLine ci = true → ∀ it ∈ its,
        it.id = ci.product.pid → it.quantity = ci.product.stock) →
      itemsAfter cart its = its.map (specStockAfter cart) := by
  intro cart
  induction cart with
  | nil =>
    intro its _ _
    have h : specStockAfter [] = fun it : Item => it :=
      funext (fun it => by simp [specStockAfter])
    rw [h, List.map_id']
    rfl
  | cons ci rest ih =>
    intro its hnodup hsnap
    cases hline : isItemLine ci with
    | false =>
      have hnodup' :
          ((rest.filter isItemLine).map (fun cj => cj.product.pid)).Nodup := by
        rw [List.filter_cons, if_neg (by simp [hline])] at hnodup
        exact hnodup
      have hsnap' : ∀ cj ∈ rest, isItemLine cj = true → ∀ it ∈ its,
          it.id = cj.product.pid → it.quantity = cj.product.stock :=
        fun cj hcj => hsnap cj (List.mem_cons_of_mem _ hcj)
      rw [itemsAfter, if_neg (by simp [hline]), ih its hnodup' hsnap']
      refine List.map_congr_left (fun it₀ _ => ?_)
      simp only [specStockAfter]
      rw [List.find?_cons_of_neg _ (by simp [hline])]
    | true =>
      rw [List.filter_cons, if_pos (by simp [hline]), List.map_cons,
        List.nodup_cons] at hnodup
      obtain ⟨hnotin, hnodup'⟩ := hnodup
      have hsnap' : ∀ cj ∈ rest, isItemLine cj = true →
          ∀ it ∈ lineDecrement ci its,
          it.id = cj.product.pid → it.quantity = cj.product.stock := by
        intro cj hcj hcjline it' hit' hid
        rcases List.mem_map.mp hit' with ⟨it₀, hit₀, heq⟩
        by_cases hc : it₀.id = ci.product.pid
        · exfalso
          apply hnotin
          have hidit : it'.id = it₀.id := by
            rw [← heq]
            simp [hc]
          rw [List.mem_map]
          refine ⟨cj, List.mem_filter.mpr ⟨hcj, hcjline⟩, ?_⟩
          rw [← hid, hidit, hc]
        · have heq' : it' = it₀ := by
            rw [← heq]
            simp [hc]
          rw [heq'] at hid ⊢
          exact hsnap cj (List.mem_cons_of_mem _ hcj) hcjline it₀ hit₀ hid
      rw [itemsAfter, if_pos (by simp [hline]),
        ih (lineDecrement ci its) hnodup' hsnap', lineDecrement, List.map_map]
      refine List.map_congr_left (fun it₀ hit₀ => ?_)
      show specStockAfter rest
          (if it₀.id == ci.product.pid then
            { it₀ with quantity := ci.product.stock - ci.quantity }
          else it₀) =
        specStockAfter (ci :: rest) it₀
      by_cases hc : it₀.id = ci.product.pid
      · rw [if_pos (by simp [hc])]
        have hfind : rest.find? (fun cj => isItemLine cj &&
            cj.product.pid ==
              ({ it₀ with quantity := ci.product.stock - ci.quantity } : Item).id) =
            none := by
          rw [List.find?_eq_none]
          intro cj hcj
          simp only [Bool.and_eq_true, beq_iff_eq, not_and]
          intro hcl hcp
          apply hnotin
          rw [List.mem_map]
          refine ⟨cj, List.mem_filter.mpr ⟨hcj, hcl⟩, ?_⟩
          rw [hcp]
          exact hc.symm ▸ rfl
        have hfind₂ : (ci :: rest).find? (fun cj => isItemLine cj &&
            cj.product.pid == it₀.id) = some ci := by
          rw [List.find?_cons_of_pos]
          simp [hline, hc]
        simp only [specStockAfter, hfind, hfind₂]
        rw [hsnap ci (List.mem_cons_self _ _) hline it₀ hit₀ hc]
      · rw [if_neg (by simp [hc])]
        simp only [specStockAfter]
        rw [List.find?_cons_of_neg]
        simp only [Bool.and_eq_true, beq_iff_eq, not_and]
        intro _ hcp
        exact hc hcp.symm

/-- C2: completePayment writes, for each item-variant cart line, the items
row of that product to its stored quantity minus the line quantity, leaves
every other items row (and all rows for shot/special lines) unchanged, and
persists every order line with price_at_time equal to the unit price
captured in the cart line (mkLine copies ci.product.price, the snapshot
taken when the line was added, never the live catalog price).  The
hypotheses say the cart's item lines name pairwise distinct products and
that each line's snapshot stock agrees with the stored row, which holds
whenever the cart was assembled from the current catalog. -/
theorem completePayment_stock_and_prices (db : DB) (cart : Cart)
    (tableName : String) (pm : PaymentMethod) (user : User) (oid : String)
    (hnodup : ((cart.filter isItemLine).map (fun ci => ci.product.pid)).Nodup)
    (hsnap : ∀ ci ∈ cart, isItemLine ci = true → ∀ it ∈ db.items,
      it.id = ci.product.pid → it.quantity = ci.product.stock) :
    (completePayment db cart tableName pm user none oid).items =
      db.items.map (specStockAfter cart) ∧
    (completePayment db cart tableName pm user none oid).order_items =
      db.order_items ++ (cart.filter isItemLine).map (mkLine oid user.id) ∧
    (completePayment db cart tableName pm user none oid).order_shots =
      db.order_shots ++ (cart.filter isShotLine).map (mkLine oid user.id) ∧
    (completePayment db cart tableName pm user none oid).order_specials =
      db.order_specials ++ (cart.filter isSpecialLine).map (mkLine oid user.id) ∧
    (∀ ci : CartItem, (mkLine oid user.id ci).price_at_time =
      ci.product.price ∧ (mkLine oid user.id ci).quantity = ci.quantity) := by
  refine ⟨?_, ?_, ?_, ?_, fun ci => ⟨rfl, rfl⟩⟩
  · show (cart.foldl (paymentStep oid user.id)
      { db with orders := db.orders ++ [mkPaidOrder tableName pm user cart oid] }).items = _
    rw [foldl_payment_items]
    exact itemsAfter_spec cart db.items hnodup hsnap
  · show (cart.foldl (paymentStep oid user.id)
      { db with orders := db.orders ++ [mkPaidOrder tableName pm user cart oid] }).order_items = _
    rw [foldl_payment_order_items]
  · show (cart.foldl (paymentStep oid user.id)
      { db with orders := db.orders ++ [mkPaidOrder tableName pm user cart oid] }).order_shots = _
    rw [foldl_payment_order_shots]
  · show (cart.foldl (paymentStep oid user.id)
      { db with orders := db.orders ++ [mkPaidOrder tableName pm user cart oid] }).order_specials = _
    rw [foldl_payment_order_specials]

/-- Witness for C2, the spec's Scenario C plus a price change: one item
line of quantity 2 captured at price 4 against a stored row of stock 5
whose catalog price has since moved to 12; payment leaves stock 3 and an
order line with price_at_time 4. -/
theorem completePayment_stock_and_prices_witness :
    (completePayment
        ⟨[⟨"b1", "Beer", 5, none, 12, "Alcohol", 30⟩], [], [], [], [], [], []⟩
        [⟨Product.item ⟨"b1", "Beer", 5, none, 4, "Alcohol", 30⟩, 2⟩]
        "T5" PaymentMethod.cash ⟨"u1", "John", "bartender"⟩ none "o1").items =
      [⟨"b1", "Beer", 3, none, 12, "Alcohol", 30⟩] ∧
    (completePayment
        ⟨[⟨"b1", "Beer", 5, none, 12, "Alcohol", 30⟩], [], [], [], [], [], []⟩
        [⟨Product.item ⟨"b1", "Beer", 5, none, 4, "Alcohol", 30⟩, 2⟩]
        "T5" PaymentMethod.cash ⟨"u1", "John", "bartender"⟩ none "o1").order_items =
      [⟨"o1", "b1", "u1", 2, 4⟩] := by
  have h := completePayment_stock_and_prices
    ⟨[⟨"b1", "Beer", 5, none, 12, "Alcohol", 30⟩], [], [], [], [], [], []⟩
    [⟨Product.item ⟨"b1", "Beer", 5, none, 4, "Alcohol", 30⟩, 2⟩]
    "T5" PaymentMethod.cash ⟨"u1", "John", "bartender"⟩ "o1"
    (by decide) (by decide)
  refine ⟨?_, ?_⟩
  · rw [h.1]
    rfl
  · rw [h.2.1]
    rfl

lemma saveAsTabState_some (db : DB) (cart : Cart) (tableName : String)
    (user : User) (tid newOrderId : String)
    (hne : ¬ (tableName = "" ∨ cart = [])) :
    saveAsTabState db cart tableName user (some tid) newOrderId =
      cart.foldl (insertCartLine tid user.id)
        (deleteOrderSpecials (deleteOrderShots (deleteOrderItems
          { db with orders := db.orders.map (fun o =>
              if o.id == tid then
                { o with table_name := tableName,
                         total := calculateTotal user.role cart,
                         service_fee := calculateServiceFee user.role cart }
              else o) } tid) tid) tid) := by
  unfold saveAsTabState
  rw [saveAsTab.eq_def, if_neg hne]

lemma saveAsTabState_none (db : DB) (cart : Cart) (tableName : String)
    (user : User) (newOrderId : String)
    (hne : ¬ (tableName = "" ∨ cart = [])) :
    saveAsTabState db cart tableName user none newOrderId =
      cart.foldl (insertCartLine newOrderId user.id)
        { db with orders :=
            db.orders ++ [mkPendingOrder tableName user cart newOrderId] } := by
  unfold saveAsTabState
  rw [saveAsTab.eq_def, if_neg hne]

/-- C8: saveAsTab with an empty tab name or an empty cart fails with the
validation alert and returns before any write, leaving the store exactly
as it was — no Order and no OrderLines are created. -/
theorem saveAsTab_validation (db : DB) (cart : Cart) (tableName : String)
    (user : User) (editingTabId : Option String) (newOrderId : String)
    (h : tableName = "" ∨ cart = []) :
    saveAsTab db cart tableName user editingTabId newOrderId =
      .error .validationError ∧
    saveAsTabState db cart tableName user editingTabId newOrderId = db := by
  have h1 : saveAsTab db cart tableName user editingTabId newOrderId =
      .error .validationError := by
    rw [saveAsTab.eq_def, if_pos h]
  refine ⟨h1, ?_⟩
  unfold saveAsTabState
  rw [h1]

/-- Witness for C8, the spec's Scenario D: an empty tab name with a
non-empty cart is rejected and the (here empty) store is untouched. -/
theorem saveAsTab_validation_witness :
    saveAsTab ⟨[], [], [], [], [], [], []⟩
        [⟨Product.shot ⟨"s1", "Jameson", 25⟩, 1⟩] "" ⟨"u1", "John", "bartender"⟩
        none "o1" = .error .validationError ∧
    saveAsTabState ⟨[], [], [], [], [], [], []⟩
        [⟨Product.shot ⟨"s1", "Jameson", 25⟩, 1⟩] "" ⟨"u1", "John", "bartender"⟩
        none "o1" = ⟨[], [], [], [], [], [], []⟩ :=
  saveAsTab_validation ⟨[], [], [], [], [], [], []⟩
    [⟨Product.shot ⟨"s1", "Jameson", 25⟩, 1⟩] "" ⟨"u1", "John", "bartender"⟩
    none "o1" (Or.inl rfl)

lemma filter_ne_then_eq (tid : String) (ls : List OrderLine) :
    (ls.filter (fun l => l.order_id != tid)).filter
      (fun l => l.order_id == tid) = [] := by
  induction ls with
  | nil => rfl
  | cons l rest ih =>
    by_cases h : l.order_id = tid <;> simp [List.filter_cons, h, ih]

lemma filter_eq_map_mkLine (tid staff : String) (ls : List CartItem) :
    ((ls.map (mkLine tid staff)).filter (fun l => l.order_id == tid)) =
      ls.map (mkLine tid staff) := by
  refine List.filter_eq_self.mpr (fun l hl => ?_)
  rcases List.mem_map.mp hl with ⟨ci, _, rfl⟩
  simp [mkLine]

/-- C4: re-saving a tab over an existing order first deletes every
OrderLine of that order in all three collections and then inserts exactly
one fresh line per cart line, each recording the caller as staff; the
resulting rows for that order in the three collections are therefore
precisely the cart lines of the last save. -/
theorem saveAsTab_replaces_lines (db : DB) (cart : Cart) (tableName : String)
    (user : User) (tid newOrderId : String)
    (hname : ¬ tableName = "") (hcart : ¬ cart = []) :
    (saveAsTabState db cart tableName user (some tid)
        newOrderId).order_items.filter (fun l => l.order_id == tid) =
      (cart.filter isItemLine).map (mkLine tid user.id) ∧
    (saveAsTabState db cart tableName user (some tid)
        newOrderId).order_shots.filter (fun l => l.order_id == tid) =
      (cart.filter isShotLine).map (mkLine tid user.id) ∧
    (saveAsTabState db cart tableName user (some tid)
        newOrderId).order_specials.filter (fun l => l.order_id == tid) =
      (cart.filter isSpecialLine).map (mkLine tid user.id) ∧
    (∀ ci : CartItem, (mkLine tid user.id ci).staff_id = user.id) := by
  have hne : ¬ (tableName = "" ∨ cart = []) := not_or.mpr ⟨hname, hcart⟩
  rw [saveAsTabState_some db cart tableName user tid newOrderId hne]
  refine ⟨?_, ?_, ?_, fun ci => rfl⟩
  · rw [foldl_insert_order_items, List.filter_append, filter_eq_map_mkLine]
    have h0 : (deleteOrderSpecials (deleteOrderShots (deleteOrderItems
        { db with orders := db.orders.map (fun o =>
            if o.id == tid then
              { o with table_name := tableName,
                       total := calculateTotal user.role cart,
                       service_fee := calculateServiceFee user.role cart }
            else o) } tid) tid) tid).order_items.filter
          (fun l => l.order_id == tid) = [] :=
      filter_ne_then_eq tid _
    rw [h0, List.nil_append]
  · rw [foldl_insert_order_shots, List.filter_append, filter_eq_map_mkLine]
    have h0 : (deleteOrderSpecials (deleteOrderShots (deleteOrderItems
        { db with orders := db.orders.map (fun o =>
            if o.id == tid then
              { o with table_name := tableName,
                       total := calculateTotal user.role cart,
                       service_fee := calculateServiceFee user.role cart }
            else o) } tid) tid) tid).order_shots.filter
          (fun l => l.order_id == tid) = [] :=
      filter_ne_then_eq tid _
    rw [h0, List.nil_append]
  · rw [foldl_insert_order_specials, List.filter_append, filter_eq_map_mkLine]
    have h0 : (deleteOrderSpecials (deleteOrderShots (deleteOrderItems
        { db with orders := db.orders.map (fun o =>
            if o.id == tid then
              { o with table_name := tableName,
                       total := calculateTotal user.role cart,
                       service_fee := calculateServiceFee user.role cart }
            else o) } tid) tid) tid).order_specials.filter
          (fun l => l.order_id == tid) = [] :=
      filter_ne_then_eq tid _
    rw [h0, List.nil_append]

/-- Witness for C4: re-saving the tab "t1" (which held a stale shot line
and a foreign order's line) with a one-item cart leaves exactly that one
fresh line for "t1" in order_items and none in the other collections. -/
theorem saveAsTab_replaces_lines_witness :
    (saveAsTabState
        ⟨[], [], [], [⟨"t1", "VIP", "pending", none, 25, 0, "u1"⟩],
          [⟨"t2", "b9", "u1", 1, 7⟩], [⟨"t1", "s1", "u1", 5, 25⟩], []⟩
        [⟨Product.item ⟨"b1", "Beer", 5, none, 4, "Alcohol", 30⟩, 2⟩]
        "VIP" ⟨"u1", "John", "bartender"⟩ (some "t1")
        "o1").order_items.filter (fun l => l.order_id == "t1") =
      [⟨"t1", "b1", "u1", 2, 4⟩] ∧
    (saveAsTabState
        ⟨[], [], [], [⟨"t1", "VIP", "pending", none, 25, 0, "u1"⟩],
          [⟨"t2", "b9", "u1", 1, 7⟩], [⟨"t1", "s1", "u1", 5, 25⟩], []⟩
        [⟨Product.item ⟨"b1", "Beer", 5, none, 4, "Alcohol", 30⟩, 2⟩]
        "VIP" ⟨"u1", "John", "bartender"⟩ (some "t1")
        "o1").order_shots.filter (fun l => l.order_id == "t1") = [] := by
  have h := saveAsTab_replaces_lines
    ⟨[], [], [], [⟨"t1", "VIP", "pending", none, 25, 0, "u1"⟩],
      [⟨"t2", "b9", "u1", 1, 7⟩], [⟨"t1", "s1", "u1", 5, 25⟩], []⟩
    [⟨Product.item ⟨"b1", "Beer", 5, none, 4, "Alcohol", 30⟩, 2⟩]
    "VIP" ⟨"u1", "John", "bartender"⟩ "t1" "o1" (by decide) (by decide)
  refine ⟨?_, ?_⟩
  · rw [h.1]
    rfl
  · rw [h.2.1]
    rfl

lemma filter_ne_idem (tid : String) (ls : List OrderLine) :
    (ls.filter (fun l => l.order_id != tid)).filter
      (fun l => l.order_id != tid) =
      ls.filter (fun l => l.order_id != tid) := by
  induction ls with
  | nil => rfl
  | cons l rest ih =>
    by_cases h : l.order_id = tid <;> simp [List.filter_cons, h, ih]

lemma filter_ne_then_eq_orders (tid : String) (ls : List OrderRec) :
    (ls.filter (fun o => o.id != tid)).filter (fun o => o.id == tid) = [] := by
  induction ls with
  | nil => rfl
  | cons o rest ih =>
    by_cases h : o.id = tid <;> simp [List.filter_cons, h, ih]

/-- C6: deleteTab leaves no OrderLine of the order behind in any of the
three collections and removes the order itself (the explicit delete covers
order_items; the cascade on the orders delete covers the rest), while
every other order's rows and the catalog are untouched. -/
theorem deleteTab_removes_all (db : DB) (tabId : String) :
    (deleteTab db tabId).orders =
      db.orders.filter (fun o => o.id != tabId) ∧
    (deleteTab db tabId).order_items =
      db.order_items.filter (fun l => l.order_id != tabId) ∧
    (deleteTab db tabId).order_shots =
      db.order_shots.filter (fun l => l.order_id != tabId) ∧
    (deleteTab db tabId).order_specials =
      db.order_specials.filter (fun l => l.order_id != tabId) ∧
    (∀ o ∈ (deleteTab db tabId).orders, ¬ o.id = tabId) ∧
    (∀ l ∈ (deleteTab db tabId).order_items ++
        (deleteTab db tabId).order_shots ++
        (deleteTab db tabId).order_specials, ¬ l.order_id = tabId) ∧
    (deleteTab db tabId).items = db.items := by
  have hitems : (deleteTab db tabId).order_items =
      db.order_items.filter (fun l => l.order_id != tabId) :=
    filter_ne_idem tabId db.order_items
  refine ⟨rfl, hitems, rfl, rfl, ?_, ?_, rfl⟩
  · intro o ho
    have h := (List.mem_filter.mp ho).2
    simpa using h
  · intro l hl
    rcases List.mem_append.mp hl with hl' | hl'
    · rcases List.mem_append.mp hl' with h2 | h2
      · have h := (List.mem_filter.mp h2).2
        simpa using h
      · have h := (List.mem_filter.mp h2).2
        simpa using h
    · have h := (List.mem_filter.mp hl').2
      simpa using h

/-- Witness for C6: deleting tab "t1" from a store holding lines for "t1"
in all three collections and a foreign line for "t2" removes the "t1"
order and exactly its lines. -/
theorem deleteTab_removes_all_witness :
    (deleteTab
        ⟨[], [], [], [⟨"t1", "VIP", "pending", none, 25, 0, "u1"⟩],
          [⟨"t1", "b1", "u1", 2, 4⟩, ⟨"t2", "b9", "u1", 1, 7⟩],
          [⟨"t1", "s1", "u1", 5, 25⟩], [⟨"t1", "p1", "u1", 1, 30⟩]⟩
        "t1").orders = [] ∧
    (deleteTab
        ⟨[], [], [], [⟨"t1", "VIP", "pending", none, 25, 0, "u1"⟩],
          [⟨"t1", "b1", "u1", 2, 4⟩, ⟨"t2", "b9", "u1", 1, 7⟩],
          [⟨"t1", "s1", "u1", 5, 25⟩], [⟨"t1", "p1", "u1", 1, 30⟩]⟩
        "t1").order_items = [⟨"t2", "b9", "u1", 1, 7⟩] ∧
    (deleteTab
        ⟨[], [], [], [⟨"t1", "VIP", "pending", none, 25, 0, "u1"⟩],
          [⟨"t1", "b1", "u1", 2, 4⟩, ⟨"t2", "b9", "u1", 1, 7⟩],
          [⟨"t1", "s1", "u1", 5, 25⟩], [⟨"t1", "p1", "u1", 1, 30⟩]⟩
        "t1").order_specials = [] := by
  have h := deleteTab_removes_all
    ⟨[], [], [], [⟨"t1", "VIP", "pending", none, 25, 0, "u1"⟩],
      [⟨"t1", "b1", "u1", 2, 4⟩, ⟨"t2", "b9", "u1", 1, 7⟩],
      [⟨"t1", "s1", "u1", 5, 25⟩], [⟨"t1", "p1", "u1", 1, 30⟩]⟩ "t1"
  refine ⟨?_, ?_, ?_⟩
  · rw [h.1]
    rfl
  · rw [h.2.1]
    rfl
  · rw [h.2.2.2.1]
    rfl

/-- C7: closing out a reopened tab deletes the prior pending order and all
of its OrderLines: after completePayment with an existingOrderId, no
orders row and no row of any of the three line collections carries that
id (the explicit deletes cover order_items and order_shots; the cascade
on the orders delete covers order_specials). -/
theorem completePayment_closeout_cleanup (db : DB) (cart : Cart)
    (tableName : String) (pm : PaymentMethod) (user : User)
    (tid oid : String) :
    (completePayment db cart tableName pm user (some tid) oid).orders.filter
        (fun o => o.id == tid) = [] ∧
    (completePayment db cart tableName pm user (some tid)
        oid).order_items.filter (fun l => l.order_id == tid) = [] ∧
    (completePayment db cart tableName pm user (some tid)
        oid).order_shots.filter (fun l => l.order_id == tid) = [] ∧
    (completePayment db cart tableName pm user (some tid)
        oid).order_specials.filter (fun l => l.order_id == tid) = [] ∧
    (∀ o ∈ (completePayment db cart tableName pm user (some tid) oid).orders,
      ¬ o.id = tid) ∧
    (∀ l ∈ (completePayment db cart tableName pm user (some tid)
          oid).order_items ++
        (completePayment db cart tableName pm user (some tid)
          oid).order_shots ++
        (completePayment db cart tableName pm user (some tid)
          oid).order_specials, ¬ l.order_id = tid) := by
  refine ⟨filter_ne_then_eq_orders tid _, filter_ne_then_eq tid _,
    filter_ne_then_eq tid _, filter_ne_then_eq tid _, ?_, ?_⟩
  · intro o ho
    have h := (List.mem_filter.mp ho).2
    simpa using h
  · intro l hl
    rcases List.mem_append.mp hl with hl' | hl'
    · rcases List.mem_append.mp hl' with h2 | h2
      · have h := (List.mem_filter.mp h2).2
        simpa using h
      · have h := (List.mem_filter.mp h2).2
        simpa using h
    · have h := (List.mem_filter.mp hl').2
      simpa using h

/-- Witness for C7: closing out tab "t1", which owned lines in all three
collections, leaves no orders row and no line row keyed "t1". -/
theorem completePayment_closeout_cleanup_witness :
    (completePayment
        ⟨[], [], [], [⟨"t1", "VIP", "pending", none, 25, 0, "u1"⟩],
          [⟨"t1", "b1", "u1", 2, 4⟩], [⟨"t1", "s1", "u1", 5, 25⟩],
          [⟨"t1", "p1", "u1", 1, 30⟩]⟩
        [] "T5" PaymentMethod.cash ⟨"u1", "John", "bartender"⟩ (some "t1")
        "o9").orders.filter (fun o => o.id == "t1") = [] ∧
    (completePayment
        ⟨[], [], [], [⟨"t1", "VIP", "pending", none, 25, 0, "u1"⟩],
          [⟨"t1", "b1", "u1", 2, 4⟩], [⟨"t1", "s1", "u1", 5, 25⟩],
          [⟨"t1", "p1", "u1", 1, 30⟩]⟩
        [] "T5" PaymentMethod.cash ⟨"u1", "John", "bartender"⟩ (some "t1")
        "o9").order_specials.filter (fun l => l.order_id == "t1") = [] := by
  have h := completePayment_closeout_cleanup
    ⟨[], [], [], [⟨"t1", "VIP", "pending", none, 25, 0, "u1"⟩],
      [⟨"t1", "b1", "u1", 2, 4⟩], [⟨"t1", "s1", "u1", 5, 25⟩],
      [⟨"t1", "p1", "u1", 1, 30⟩]⟩
    [] "T5" PaymentMethod.cash ⟨"u1", "John", "bartender"⟩ "t1" "o9"
  exact ⟨h.1, h.2.2.2.1⟩

/-- C10: completePayment performs no table-name validation: an empty name
is persisted as the "Quick Sale" default, the paid order row always lands
in the store, its name is never empty, and a store whose orders all have
non-empty names keeps that property through any completePayment call. -/
theorem completePayment_quick_sale_default (db : DB) (cart : Cart)
    (pm : PaymentMethod) (user : User) (et : Option String)
    (oid tableName : String) :
    (mkPaidOrder "" pm user cart oid).table_name = "Quick Sale" ∧
    mkPaidOrder tableName pm user cart oid ∈
      (completePayment db cart tableName pm user none oid).orders ∧
    ¬ (mkPaidOrder tableName pm user cart oid).table_name = "" ∧
    ((∀ o ∈ db.orders, ¬ o.table_name = "") →
      ∀ o ∈ (completePayment db cart tableName pm user et oid).orders,
        ¬ o.table_name = "") := by
  have hname : ¬ (mkPaidOrder tableName pm user cart oid).table_name = "" := by
    show ¬ (if tableName = "" then "Quick Sale" else tableName) = ""
    by_cases h : tableName = ""
    · rw [if_pos h]
      decide
    · rw [if_neg h]
      exact h
  have hnone : (completePayment db cart tableName pm user none oid).orders =
      db.orders ++ [mkPaidOrder tableName pm user cart oid] := by
    show (cart.foldl (paymentStep oid user.id)
      { db with orders := db.orders ++ [mkPaidOrder tableName pm user cart oid] }).orders = _
    rw [foldl_payment_orders]
  refine ⟨rfl, ?_, hname, ?_⟩
  · rw [hnone]
    exact List.mem_append_right _ (List.mem_singleton.mpr rfl)
  · intro hdb o ho
    have hmem : o ∈ db.orders ++ [mkPaidOrder tableName pm user cart oid] := by
      cases et with
      | none =>
        rw [hnone] at ho
        exact ho
      | some tid =>
        have h1 : (completePayment db cart tableName pm user (some tid)
            oid).orders =
            ((cart.foldl (paymentStep oid user.id)
              { db with orders :=
                  db.orders ++ [mkPaidOrder tableName pm user cart oid] }).orders).filter
              (fun o => o.id != tid) := rfl
        rw [h1, foldl_payment_orders] at ho
        exact List.mem_of_mem_filter ho
    rcases List.mem_append.mp hmem with h | h
    · exact hdb o h
    · rcases List.mem_singleton.mp h with rfl
      exact hname

/-- Witness for C10: a quick sale of one shot with an empty table name is
persisted under the name "Quick Sale", which is non-empty. -/
theorem completePayment_quick_sale_default_witness :
    (mkPaidOrder "" PaymentMethod.cash ⟨"u1", "John", "bartender"⟩
      [⟨Product.shot ⟨"s1", "Jameson", 25⟩, 1⟩] "o1").table_name =
      "Quick Sale" ∧
    ¬ (mkPaidOrder "" PaymentMethod.cash ⟨"u1", "John", "bartender"⟩
      [⟨Product.shot ⟨"s1", "Jameson", 25⟩, 1⟩] "o1").table_name = "" := by
  have h := completePayment_quick_sale_default ⟨[], [], [], [], [], [], []⟩
    [⟨Product.shot ⟨"s1", "Jameson", 25⟩, 1⟩] PaymentMethod.cash
    ⟨"u1", "John", "bartender"⟩ none "o1" ""
  exact ⟨h.1, h.2.2.2 (by intro o ho; cases ho) _ h.2.1⟩

lemma filterMap_back {α β : Type} (g : α → β) (f : β → Option α)
    (l : List α) (h : ∀ a ∈ l, f (g a) = some a) :
    (l.map g).filterMap f = l := by
  induction l with
  | nil => rfl
  | cons a t ih =>
    simp only [List.map_cons, List.filterMap_cons,
      h a (List.mem_cons_self _ _)]
    rw [ih (fun b hb => h b (List.mem_cons_of_mem _ hb))]

lemma filter_three_perm :
    ∀ cart : Cart,
      (cart.filter isItemLine ++ cart.filter isShotLine ++
        cart.filter isSpecialLine).Perm cart := by
  intro cart
  induction cart with
  | nil => exact List.Perm.nil
  | cons ci rest ih =>
    cases hp : ci.product with
    | item i =>
      have h1 : isItemLine ci = true := by
        simp [isItemLine, hp, Product.isShot, Product.isSpecial]
      have h2 : isShotLine ci = false := by
        simp [isShotLine, hp, Product.isShot]
      have h3 : isSpecialLine ci = false := by
        simp [isSpecialLine, hp, Product.isSpecial]
      simp only [List.filter_cons, h1, h2, h3, if_true, if_false,
        Bool.false_eq_true, Bool.true_eq_false]
      rw [List.cons_append, List.cons_append]
      exact ih.cons ci
    | shot s =>
      have h1 : isItemLine ci = false := by
        simp [isItemLine, hp, Product.isShot]
      have h2 : isShotLine ci = true := by
        simp [isShotLine, hp, Product.isShot]
      have h3 : isSpecialLine ci = false := by
        simp [isSpecialLine, hp, Product.isShot]
      simp only [List.filter_cons, h1, h2, h3, if_true, if_false,
        Bool.false_eq_true, Bool.true_eq_false]
      refine List.Perm.trans (List.Perm.append_right _ List.perm_middle) ?_
      rw [List.cons_append]
      exact ih.cons ci
    | special sp =>
      have h1 : isItemLine ci = false := by
        simp [isItemLine, hp, Product.isSpecial]
      have h2 : isShotLine ci = false := by
        simp [isShotLine, hp, Product.isShot]
      have h3 : isSpecialLine ci = true := by
        simp [isSpecialLine, hp, Product.isShot, Product.isSpecial]
      simp only [List.filter_cons, h1, h2, h3, if_true, if_false,
        Bool.false_eq_true, Bool.true_eq_false]
      exact List.Perm.trans List.perm_middle (ih.cons ci)

lemma rehydrate_saveAsTab (db : DB) (cart : Cart) (tableName : String)
    (user : User) (oid : String)
    (hne : ¬ (tableName = "" ∨ cart = []))
    (hfi : ∀ l ∈ db.order_items, ¬ l.order_id = oid)
    (hfs : ∀ l ∈ db.order_shots, ¬ l.order_id = oid)
    (hfp : ∀ l ∈ db.order_specials, ¬ l.order_id = oid)
    (hcat : ∀ ci ∈ cart,
      (∀ it : Item, ci.product = Product.item it →
        db.items.find? (fun x => x.id == it.id) = some it) ∧
      (∀ s : Shot, ci.product = Product.shot s →
        db.shots.find? (fun x => x.id == s.id) = some s) ∧
      (∀ sp : Special, ci.product = Product.special sp →
        db.specials.find? (fun x => x.id == sp.id) = some sp)) :
    rehydrate (saveAsTabState db cart tableName user none oid) oid =
      cart.filter isItemLine ++ cart.filter isShotLine ++
        cart.filter isSpecialLine := by
  rw [saveAsTabState_none db cart tableName user oid hne]
  have hI : (cart.foldl (insertCartLine oid user.id)
      { db with orders :=
          db.orders ++ [mkPendingOrder tableName user cart oid] }).items =
      db.items :=
    (foldl_insert_items oid user.id cart _).trans rfl
  have hS : (cart.foldl (insertCartLine oid user.id)
      { db with orders :=
          db.orders ++ [mkPendingOrder tableName user cart oid] }).shots =
      db.shots :=
    (foldl_insert_shots oid user.id cart _).trans rfl
  have hP : (cart.foldl (insertCartLine oid user.id)
      { db with orders :=
          db.orders ++ [mkPendingOrder tableName user cart oid] }).specials =
      db.specials :=
    (foldl_insert_specials oid user.id cart _).trans rfl
  have hOI : (cart.foldl (insertCartLine oid user.id)
      { db with orders :=
          db.orders ++ [mkPendingOrder tableName user cart oid] }).order_items =
      db.order_items ++ (cart.filter isItemLine).map (mkLine oid user.id) :=
    (foldl_insert_order_items oid user.id cart _).trans rfl
  have hOS : (cart.foldl (insertCartLine oid user.id)
      { db with orders :=
          db.orders ++ [mkPendingOrder tableName user cart oid] }).order_shots =
      db.order_shots ++ (cart.filter isShotLine).map (mkLine oid user.id) :=
    (foldl_insert_order_shots oid user.id cart _).trans rfl
  have hOP : (cart.foldl (insertCartLine oid user.id)
      { db with orders :=
          db.orders ++ [mkPendingOrder tableName user cart oid] }).order_specials =
      db.order_specials ++ (cart.filter isSpecialLine).map (mkLine oid user.id) :=
    (foldl_insert_order_specials oid user.id cart _).trans rfl
  unfold rehydrate
  have hnil₁ : db.order_items.filter (fun l => l.order_id == oid) = [] :=
    List.filter_eq_nil_iff.mpr (fun l hl => by simpa using hfi l hl)
  have hnil₂ : db.order_shots.filter (fun l => l.order_id == oid) = [] :=
    List.filter_eq_nil_iff.mpr (fun l hl => by simpa using hfs l hl)
  have hnil₃ : db.order_specials.filter (fun l => l.order_id == oid) = [] :=
    List.filter_eq_nil_iff.mpr (fun l hl => by simpa using hfp l hl)
  rw [hI, hS, hP, hOI, hOS, hOP, List.filter_append, List.filter_append,
    List.filter_append,
    filter_eq_map_mkLine, filter_eq_map_mkLine, filter_eq_map_mkLine,
    hnil₁, hnil₂, hnil₃,
    List.nil_append, List.nil_append, List.nil_append]
  have hchunkI : ((cart.filter isItemLine).map (mkLine oid user.id)).filterMap
      (fun l => (db.items.find? (fun it => it.id == l.product_id)).map
        (fun it => (⟨Product.item it, l.quantity⟩ : CartItem))) =
      cart.filter isItemLine := by
    refine filterMap_back _ _ _ (fun ci hci => ?_)
    have hmem := List.mem_of_mem_filter hci
    have hline := (List.mem_filter.mp hci).2
    obtain ⟨p, q⟩ := ci
    cases hp : p with
    | item it =>
      subst hp
      have hfind := (hcat ⟨Product.item it, q⟩ hmem).1 it rfl
      simp only [mkLine, Product.pid]
      rw [hfind]
      rfl
    | shot s =>
      subst hp
      simp [isItemLine, Product.isShot] at hline
    | special sp =>
      subst hp
      simp [isItemLine, Product.isShot, Product.isSpecial] at hline
  have hchunkS : ((cart.filter isShotLine).map (mkLine oid user.id)).filterMap
      (fun l => (db.shots.find? (fun s => s.id == l.product_id)).map
        (fun s => (⟨Product.shot s, l.quantity⟩ : CartItem))) =
      cart.filter isShotLine := by
    refine filterMap_back _ _ _ (fun ci hci => ?_)
    have hmem := List.mem_of_mem_filter hci
    have hline := (List.mem_filter.mp hci).2
    obtain ⟨p, q⟩ := ci
    cases hp : p with
    | item it =>
      subst hp
      simp [isShotLine, Product.isShot] at hline
    | shot s =>
      subst hp
      have hfind := (hcat ⟨Product.shot s, q⟩ hmem).2.1 s rfl
      simp only [mkLine, Product.pid]
      rw [hfind]
      rfl
    | special sp =>
      subst hp
      simp [isShotLine, Product.isShot] at hline
  have hchunkP : ((cart.filter isSpecialLine).map (mkLine oid user.id)).filterMap
      (fun l => (db.specials.find? (fun sp => sp.id == l.product_id)).map
        (fun sp => (⟨Product.special sp, l.quantity⟩ : CartItem))) =
      cart.filter isSpecialLine := by
    refine filterMap_back _ _ _ (fun ci hci => ?_)
    have hmem := List.mem_of_mem_filter hci
    have hline := (List.mem_filter.mp hci).2
    obtain ⟨p, q⟩ := ci
    cases hp : p with
    | item it =>
      subst hp
      simp [isSpecialLine, Product.isSpecial] at hline
    | shot s =>
      subst hp
      simp [isSpecialLine, Product.isShot] at hline
    | special sp =>
      subst hp
      have hfind := (hcat ⟨Product.special sp, q⟩ hmem).2.2 sp rfl
      simp only [mkLine, Product.pid]
      rw [hfind]
      rfl
  rw [hchunkI, hchunkS, hchunkP]

/-- C5: saving a non-empty cart as a new tab and immediately reopening it
rebuilds a cart that is a permutation of the saved one — in particular the
two carts, viewed as sets of (product, variant, quantity, unit price)
tuples (exactly the data a CartItem carries), are equal.  The hypotheses
say the save succeeds, the generated order id is fresh, and each cart
line's snapshot is the catalog row its id currently resolves to (no
catalog edit between save and reopen). -/
theorem saveAsTab_roundtrip (db : DB) (cart : Cart) (tableName : String)
    (user : User) (oid : String)
    (hname : ¬ tableName = "") (hcart : ¬ cart = [])
    (hfi : ∀ l ∈ db.order_items, ¬ l.order_id = oid)
    (hfs : ∀ l ∈ db.order_shots, ¬ l.order_id = oid)
    (hfp : ∀ l ∈ db.order_specials, ¬ l.order_id = oid)
    (hcat : ∀ ci ∈ cart,
      (∀ it : Item, ci.product = Product.item it →
        db.items.find? (fun x => x.id == it.id) = some it) ∧
      (∀ s : Shot, ci.product = Product.shot s →
        db.shots.find? (fun x => x.id == s.id) = some s) ∧
      (∀ sp : Special, ci.product = Product.special sp →
        db.specials.find? (fun x => x.id == sp.id) = some sp)) :
    (rehydrate (saveAsTabState db cart tableName user none oid) oid).Perm
      cart ∧
    ∀ ci : CartItem,
      ci ∈ rehydrate (saveAsTabState db cart tableName user none oid) oid ↔
        ci ∈ cart := by
  have hne : ¬ (tableName = "" ∨ cart = []) := not_or.mpr ⟨hname, hcart⟩
  have heq := rehydrate_saveAsTab db cart tableName user oid hne hfi hfs hfp hcat
  have hperm : (rehydrate (saveAsTabState db cart tableName user none oid)
      oid).Perm cart := by
    rw [heq]
    exact filter_three_perm cart
  exact ⟨hperm, fun ci => hperm.mem_iff⟩

/-- Witness for C5: a two-line cart (one stocked item, one shot) saved as
tab "o1" against a store whose catalog rows coincide with the snapshots;
the reopened cart contains exactly the saved lines. -/
theorem saveAsTab_roundtrip_witness :
    (⟨Product.item ⟨"b1", "Beer", 5, none, 4, "Alcohol", 30⟩, 2⟩ : CartItem) ∈
      rehydrate (saveAsTabState
        ⟨[⟨"b1", "Beer", 5, none, 4, "Alcohol", 30⟩], [⟨"s1", "Jameson", 25⟩],
          [], [], [], [], []⟩
        [⟨Product.item ⟨"b1", "Beer", 5, none, 4, "Alcohol", 30⟩, 2⟩,
         ⟨Product.shot ⟨"s1", "Jameson", 25⟩, 1⟩]
        "VIP" ⟨"u1", "John", "bartender"⟩ none "o1") "o1" ∧
    (⟨Product.shot ⟨"s2", "Martell", 45⟩, 1⟩ : CartItem) ∉
      rehydrate (saveAsTabState
        ⟨[⟨"b1", "Beer", 5, none, 4, "Alcohol", 30⟩], [⟨"s1", "Jameson", 25⟩],
          [], [], [], [], []⟩
        [⟨Product.item ⟨"b1", "Beer", 5, none, 4, "Alcohol", 30⟩, 2⟩,
         ⟨Product.shot ⟨"s1", "Jameson", 25⟩, 1⟩]
        "VIP" ⟨"u1", "John", "bartender"⟩ none "o1") "o1" := by
  have h := saveAsTab_roundtrip
    ⟨[⟨"b1", "Beer", 5, none, 4, "Alcohol", 30⟩], [⟨"s1", "Jameson", 25⟩],
      [], [], [], [], []⟩
    [⟨Product.item ⟨"b1", "Beer", 5, none, 4, "Alcohol", 30⟩, 2⟩,
     ⟨Product.shot ⟨"s1", "Jameson", 25⟩, 1⟩]
    "VIP" ⟨"u1", "John", "bartender"⟩ "o1"
    (by decide) (by decide)
    (by intro l hl; cases hl) (by intro l hl; cases hl)
    (by intro l hl; cases hl)
    (by
      intro ci hci
      rcases List.mem_cons.mp hci with rfl | hci'
      · refine ⟨?_, ?_, ?_⟩
        · intro it hit
          cases hit
          rfl
        · intro s hs
          cases hs
        · intro sp hsp
          cases hsp
      · rcases List.mem_cons.mp hci' with rfl | hci''
        · refine ⟨?_, ?_, ?_⟩
          · intro it hit
            cases hit
          · intro s hs
            cases hs
            rfl
          · intro sp hsp
            cases hsp
        · cases hci'')
  constructor
  · exact (h.2 _).mpr (List.mem_cons_self _ _)
  · intro hmem
    have h2 := (h.2 _).mp hmem
    simp only [List.mem_cons, List.not_mem_nil, or_false] at h2
    rcases h2 with heq | heq <;> simp at heq

end PandaPOS

